import Mathlib

/-!
Verification development for the activity-tracker backend
(Express + PostgreSQL).  The definitions below are a shallow embedding of
the route handlers in src/routes/sync.js, src/routes/screenshots.js and
src/routes/analytics.js together with the table shapes declared in
src/models/database.js.

Modelling conventions
* SQL tables are Lean lists of records; an SQL UPDATE/DELETE maps over /
  filters the list; INSERT appends.
* SQL INTEGER columns are Lean Int; TEXT columns that may be NULL are
  Option String.
* The first_visit / last_visit columns store fixed-width ISO-8601 strings
  produced by new Date(x).toISOString(); such strings compare
  lexicographically exactly as the instants they denote, so the model
  represents the instants as integers and Postgres LEAST/GREATEST on the
  text columns as min/max on integers (with SQL NULL-ignoring semantics,
  see leastOpt/greatestOpt).
* Request bodies arrive as parsed JSON, modelled by the dynamic value
  type JsVal; JavaScript truthiness, typeof and Object.entries are
  modelled on it.  Property access on null/undefined throws a TypeError,
  modelled by Except; a throw inside the handler loop is caught by the
  surrounding try/catch, which returns a 500 response while keeping any
  rows already written (there is no enclosing transaction in the code).
* Object keys produced by JSON.parse are distinct; objects with duplicate
  keys do not occur as route inputs.
-/

/-- Dynamic JavaScript/JSON value, as delivered by the express.json body
parser.  Date-string timestamps are outside the modelled input space
(see timeParam); instants are carried as numbers. -/
inductive JsVal where
  | vUndefined
  | vNull
  | vBool (b : Bool)
  | vNum (n : Int)
  | vStr (s : String)
  | vObj (fields : List (String × JsVal))

/-- JavaScript truthiness of a value. -/
def jsTruthy : JsVal → Bool
  | .vUndefined => false
  | .vNull => false
  | .vBool b => b
  | .vNum n => n != 0
  | .vStr s => s != ""
  | .vObj _ => true

/-- Whether `typeof v === 'object'` holds (true for null and objects). -/
def jsTypeofObject : JsVal → Bool
  | .vNull => true
  | .vObj _ => true
  | _ => false

/-- Object.entries.  Enumerates object fields; a string enumerates its
characters under stringified indices; numbers and booleans have no own
enumerable properties; null/undefined throw a TypeError. -/
def jsEntries : JsVal → Except Unit (List (String × JsVal))
  | .vObj l => .ok l
  | .vStr s => .ok (((List.range s.length).zip s.toList).map
      (fun p => (toString p.1, JsVal.vStr (String.mk [p.2]))))
  | .vNull => .error ()
  | .vUndefined => .error ()
  | _ => .ok []

/-- Property access `v.f`: fields of objects, undefined on other
non-nullish values, a TypeError on null/undefined. -/
def jsGet : JsVal → String → Except Unit JsVal
  | .vNull, _ => .error ()
  | .vUndefined, _ => .error ()
  | .vObj l, f => .ok (((l.find? (fun p => p.1 == f)).map Prod.snd).getD .vUndefined)
  | _, _ => .ok .vUndefined

/-- The JavaScript `a || b` operator. -/
def jsOr (a b : JsVal) : JsVal := if jsTruthy a then a else b

/-- String coercion of a value, as the pg driver renders non-null
parameters bound to TEXT columns.  (Composite values are serialised by
the driver; the exact text is irrelevant to every claim and a fixed
placeholder is used.) -/
def jsToStr : JsVal → String
  | .vStr s => s
  | .vNum n => toString n
  | .vBool b => if b then "true" else "false"
  | .vNull => "null"
  | .vUndefined => "undefined"
  | .vObj _ => "[object]"

/-- A value bound to a nullable TEXT parameter: null and undefined are
sent as SQL NULL, everything else as its text rendering. -/
def textParam : JsVal → Option String
  | .vNull => none
  | .vUndefined => none
  | v => some (jsToStr v)

/-- The expression `x || 0` bound to an INTEGER parameter.  Falsy values
become 0; numbers pass through; numeric strings are cast by Postgres;
any other truthy value makes the INSERT fail (surfaced as a caught
storage error). -/
def intParam (v : JsVal) : Except Unit Int :=
  if jsTruthy v then
    match v with
    | .vNum n => .ok n
    | .vStr s =>
      match s.toInt? with
      | some n => .ok n
      | none => .error ()
    | _ => .error ()
  else .ok 0

/-- The expression `x ? new Date(x).toISOString() : null`.  Falsy values
give NULL; numeric values are epoch instants; date strings are outside
the modelled input space (an unparseable date makes toISOString throw). -/
def timeParam (v : JsVal) : Except Unit (Option Int) :=
  if jsTruthy v then
    match v with
    | .vNum n => .ok (some n)
    | _ => .error ()
  else .ok none

/-- One row of the devices table (src/models/database.js). -/
structure Device where
  id : String
  userId : String
  deviceName : String
  deviceType : String
  lastSyncAt : Option Int
deriving DecidableEq, Repr

/-- One row of the usage_records table.  The synced_at audit column is
not consulted by any modelled logic and is omitted. -/
structure UsageRecord where
  userId : String
  deviceId : String
  domain : String
  title : Option String
  category : Option String
  date : String
  totalSeconds : Int
  visits : Int
  firstVisit : Option Int
  lastVisit : Option Int
deriving DecidableEq, Repr

/-- One row of the activity_events table. -/
structure ActivityEvent where
  userId : String
  deviceId : String
  state : String
  timestamp : String
  date : String
deriving DecidableEq, Repr

/-- One element of the activityEvents array of a push body. -/
structure EvIn where
  state : String
  timestamp : String
  date : String
deriving DecidableEq, Repr

/-- One row of the sync_log table. -/
structure SyncLogEntry where
  userId : String
  deviceId : String
  syncType : String
  recordsSynced : Int
  syncedAt : Int
deriving DecidableEq, Repr

/-- The database state touched by the sync routes. -/
structure St where
  devices : List Device
  usage : List UsageRecord
  events : List ActivityEvent
  syncLog : List SyncLogEntry
deriving DecidableEq, Repr

/-- The bound parameters of one execution of the INSERT ... ON CONFLICT
statement in POST /push (sync.js lines 23-40). -/
structure RowParams where
  userId : String
  deviceId : String
  domain : String
  date : String
  title : Option String
  category : Option String
  totalSeconds : Int
  visits : Int
  firstVisit : Option Int
  lastVisit : Option Int
deriving DecidableEq, Repr

/-- Postgres LEAST on two nullable values: NULLs are ignored; NULL only
when both are NULL. -/
def leastOpt : Option Int → Option Int → Option Int
  | none, none => none
  | none, some y => some y
  | some x, none => some x
  | some x, some y => some (min x y)

/-- Postgres GREATEST on two nullable values: NULLs are ignored. -/
def greatestOpt : Option Int → Option Int → Option Int
  | none, none => none
  | none, some y => some y
  | some x, none => some x
  | some x, some y => some (max x y)

/-- SQL COALESCE of two nullable values. -/
def coalesce {α : Type} : Option α → Option α → Option α
  | some v, _ => some v
  | none, b => b

/-- The DO UPDATE arm of the upsert: GREATEST on the counters, COALESCE
preferring the incoming title/category, LEAST/GREATEST on the visit
window. -/
def mergeRec (old : UsageRecord) (p : RowParams) : UsageRecord :=
  { old with
    totalSeconds := max old.totalSeconds p.totalSeconds
    visits := max old.visits p.visits
    title := coalesce p.title old.title
    category := coalesce p.category old.category
    firstVisit := leastOpt old.firstVisit p.firstVisit
    lastVisit := greatestOpt old.lastVisit p.lastVisit }

/-- The plain INSERT arm of the upsert. -/
def insertRecOf (p : RowParams) : UsageRecord :=
  { userId := p.userId, deviceId := p.deviceId, domain := p.domain
    title := p.title, category := p.category, date := p.date
    totalSeconds := p.totalSeconds, visits := p.visits
    firstVisit := p.firstVisit, lastVisit := p.lastVisit }

/-- The conflict key (user_id, device_id, domain, date) of a stored row. -/
def keyOfR (r : UsageRecord) : String × String × String × String :=
  (r.userId, r.deviceId, r.domain, r.date)

/-- The conflict key of a bound parameter row. -/
def keyOfP (p : RowParams) : String × String × String × String :=
  (p.userId, p.deviceId, p.domain, p.date)

/-- Whether a stored row conflicts with the incoming one on the UNIQUE
(user_id, device_id, domain, date) constraint. -/
def matchKey (p : RowParams) (r : UsageRecord) : Bool :=
  keyOfR r == keyOfP p

/-- One execution of the upsert statement against the table: update the
conflicting row if present, else append the new row. -/
def upsertList : List UsageRecord → RowParams → List UsageRecord
  | [], p => [insertRecOf p]
  | r :: rs, p =>
    if matchKey p r then mergeRec r p :: rs else r :: upsertList rs p

/-- The parameter binding of sync.js lines 34-40 for one (domain, data)
entry: title defaults to the domain, category to 'Other', the counters
to 0 via ||, the visit timestamps to NULL.  Property access on a nullish
data value throws. -/
def entryRow (uid did domain date : String) (data : JsVal) :
    Except Unit RowParams :=
  match jsGet data "title", jsGet data "category", jsGet data "totalSeconds",
      jsGet data "visits", jsGet data "firstVisit", jsGet data "lastVisit" with
  | .ok tv, .ok cv, .ok tsv, .ok vv, .ok fvv, .ok lvv =>
    match intParam tsv, intParam vv, timeParam fvv, timeParam lvv with
    | .ok ts, .ok vs, .ok fv, .ok lv =>
      .ok { userId := uid, deviceId := did, domain := domain, date := date
            title := textParam (jsOr tv (.vStr domain))
            category := textParam (jsOr cv (.vStr "Other"))
            totalSeconds := ts, visits := vs
            firstVisit := fv, lastVisit := lv }
    | _, _, _, _ => .error ()
  | _, _, _, _, _, _ => .error ()

/-- Apply one upsert to the state. -/
def applyRow (st : St) (p : RowParams) : St :=
  { st with usage := upsertList st.usage p }

/-- The inner loop of POST /push over Object.entries(domains) for one
date.  A throw stops the loop; rows already upserted stay committed. -/
def processDomains (uid did date : String) :
    List (String × JsVal) → St → Nat → St × Except Unit Nat
  | [], st, n => (st, .ok n)
  | (dom, data) :: rest, st, n =>
    match entryRow uid did dom date data with
    | .error _ => (st, .error ())
    | .ok p => processDomains uid did date rest (applyRow st p) (n + 1)

/-- The outer loop of POST /push over Object.entries(usageData). -/
def processDates (uid did : String) :
    List (String × JsVal) → St → Nat → St × Except Unit Nat
  | [], st, n => (st, .ok n)
  | (date, domv) :: rest, st, n =>
    match jsEntries domv with
    | .error _ => (st, .error ())
    | .ok doms =>
      match processDomains uid did date doms st n with
      | (st', .ok n') => processDates uid did rest st' n'
      | (st', .error e) => (st', .error e)

/-- HTTP outcome of POST /push. -/
inductive PushResult where
  | badRequest
  | deviceNotFound
  | serverError
  | ok (usageRecords activityEvents : Nat)
deriving DecidableEq, Repr

/-- POST /push (sync.js).  Validates deviceId truthiness, checks device
ownership, upserts the usage report, appends the last 200 activity
events, stamps the device's last_sync_at and appends a sync_log row.
A throw while processing usage is caught and answered with a 500,
keeping rows written before the throw (no transaction in the source). -/
def push (now : Int) (uid : String) (deviceId usageData : JsVal)
    (activityEvents : Option (List EvIn)) (st : St) : PushResult × St :=
  if ¬ jsTruthy deviceId then (.badRequest, st)
  else
    let did := jsToStr deviceId
    match st.devices.find? (fun d => d.id == did && d.userId == uid) with
    | none => (.deviceNotFound, st)
    | some _ =>
      let usageStep : St × Except Unit Nat :=
        if jsTruthy usageData && jsTypeofObject usageData then
          match usageData with
          | .vObj l => processDates uid did l st 0
          | _ => (st, .ok 0)
        else (st, .ok 0)
      match usageStep with
      | (st1, .error _) => (.serverError, st1)
      | (st1, .ok usageCount) =>
        let evStep : St × Nat :=
          match activityEvents with
          | some evs =>
            let taken := evs.drop (evs.length - 200)
            ({ st1 with events := st1.events ++
                taken.map (fun e => ⟨uid, did, e.state, e.timestamp, e.date⟩) },
             taken.length)
          | none => (st1, 0)
        let st2 := evStep.1
        let devs := st2.devices.map
          (fun d => if d.id == did then { d with lastSyncAt := some now } else d)
        let st3 := { st2 with devices := devs }
        let log := st3.syncLog ++ [⟨uid, did, "push", (usageCount : Int), now⟩]
        let st4 := { st3 with syncLog := log }
        (.ok usageCount evStep.2, st4)

/-- Look up the stored row under a conflict key. -/
def lookupU (l : List UsageRecord) (k : String × String × String × String) :
    Option UsageRecord :=
  l.find? (fun r => keyOfR r == k)

/-- Look up a conflict key in the state. -/
def lookupUsage (st : St) (k : String × String × String × String) :
    Option UsageRecord :=
  lookupU st.usage k

/-- The sequence of successfully bound parameter rows of the inner
domains loop, up to the first throw (used to characterise
processDomains). -/
def rowsOfDomains (uid did date : String) : List (String × JsVal) → List RowParams
  | [] => []
  | (dom, data) :: rest =>
    match entryRow uid did dom date data with
    | .error _ => []
    | .ok p => p :: rowsOfDomains uid did date rest

/-- Whether the inner domains loop runs to completion without a throw. -/
def okDomains (uid did date : String) : List (String × JsVal) → Bool
  | [] => true
  | (dom, data) :: rest =>
    match entryRow uid did dom date data with
    | .error _ => false
    | .ok _ => okDomains uid did date rest

/-- The sequence of successfully bound parameter rows of the outer dates
loop, up to the first throw. -/
def rowsOfDates (uid did : String) : List (String × JsVal) → List RowParams
  | [] => []
  | (date, domv) :: rest =>
    match jsEntries domv with
    | .error _ => []
    | .ok doms =>
      rowsOfDomains uid did date doms ++
        (if okDomains uid did date doms then rowsOfDates uid did rest else [])

/-- Whether the outer dates loop runs to completion without a throw. -/
def okDates (uid did : String) : List (String × JsVal) → Bool
  | [] => true
  | (date, domv) :: rest =>
    match jsEntries domv with
    | .error _ => false
    | .ok doms => okDomains uid did date doms && okDates uid did rest

/-- The parameter rows a whole push binds for its usage report (empty
when the usageData guard fails). -/
def rowsOfPush (uid did : String) (usageData : JsVal) : List RowParams :=
  if jsTruthy usageData && jsTypeofObject usageData then
    match usageData with
    | .vObj l => rowsOfDates uid did l
    | _ => []
  else []

/-- Fold a sequence of upserts over the usage table. -/
def applyRowsL (l : List UsageRecord) (rows : List RowParams) : List UsageRecord :=
  rows.foldl upsertList l

/-- Well-formedness of a report value as produced by JSON.parse: the
enumerated keys are distinct at both levels.  (Parsed JSON objects never
carry duplicate keys, and string character indices are distinct.) -/
def wfReportB : JsVal → Bool
  | .vObj l =>
    decide (l.map Prod.fst).Nodup &&
      l.all (fun p =>
        match jsEntries p.2 with
        | .ok doms => decide (doms.map Prod.fst).Nodup
        | .error _ => true)
  | _ => true

/-- Propositional form of report well-formedness. -/
def wfReport (v : JsVal) : Prop := wfReportB v = true

instance (v : JsVal) : Decidable (wfReport v) := by
  unfold wfReport; infer_instance

/-!
Screenshot storage (src/routes/screenshots.js).  The state is the
screenshots table plus the set of stored files, keyed by
(userId, filename) mirroring the per-user upload directory.  Columns not
consulted by the modelled logic (thumbnail, domain, title, url,
category, timestamp, file_size) are omitted.
-/

/-- One row of the screenshots table. -/
structure SsRow where
  id : String
  userId : String
  deviceId : String
  filename : String
  date : String
  createdAt : Nat
deriving DecidableEq, Repr

/-- Screenshot storage state: metadata rows plus files on disk. -/
structure SsSt where
  rows : List SsRow
  files : List (String × String)
deriving DecidableEq, Repr

/-- COUNT(*) of a user's screenshot rows. -/
def ssCount (st : SsSt) (uid : String) : Nat :=
  (st.rows.filter (fun r => r.userId == uid)).length

/-- POST /upload (multipart): multer stores the file, then the handler
inserts the metadata row.  No limit enforcement follows. -/
def uploadMultipart (uid deviceId id filename date : String) (createdAt : Nat)
    (st : SsSt) : SsSt :=
  { rows := st.rows ++ [⟨id, uid, deviceId, filename, date, createdAt⟩]
    files := (uid, filename) :: st.files }

/-- ORDER BY created_at ASC over a user's rows, then LIMIT k: the oldest
k screenshots of the user. -/
def oldestRows (rows : List SsRow) (uid : String) (k : Nat) : List SsRow :=
  (List.insertionSort (fun a b => a.createdAt ≤ b.createdAt)
    (rows.filter (fun r => r.userId == uid))).take k

/-- Deletion of one screenshot inside the eviction loop: unlink the file
if it exists, then delete the metadata row unconditionally. -/
def deleteOne (uid : String) (st : SsSt) (ss : SsRow) : SsSt :=
  { rows := st.rows.filter (fun r => r.id != ss.id)
    files := if (uid, ss.filename) ∈ st.files
      then st.files.erase (uid, ss.filename) else st.files }

/-- The limit-enforcement block of POST /upload-base64: when the user's
count exceeds 200, evict the oldest count - 200 rows. -/
def enforceLimit (uid : String) (st : SsSt) : SsSt :=
  let c := ssCount st uid
  if 200 < c then (oldestRows st.rows uid (c - 200)).foldl (deleteOne uid) st
  else st

/-- POST /upload-base64, after the data-URL regex has validated the
payload (an invalid data URL is answered 400 before any state change):
write the file, insert the metadata row, then enforce the 200 cap. -/
def uploadBase64 (uid deviceId id filename date : String) (createdAt : Nat)
    (st : SsSt) : SsSt :=
  let st1 : SsSt :=
    { rows := st.rows ++ [⟨id, uid, deviceId, filename, date, createdAt⟩]
      files := (uid, filename) :: st.files }
  enforceLimit uid st1

/-!
Analytics (src/routes/analytics.js).  Pure read-side aggregation over
usage_records; SQL SUM/COUNT/GROUP BY/ORDER BY are modelled by list
folds, dedup and insertion sort.  node-pg returns bigint sums as decimal
strings and the handlers apply parseInt(x) || 0, the identity on the
integer values modelled here.
-/

/-- One row of the per-site GROUP BY (domain, title, category) result. -/
structure SiteRow where
  domain : String
  title : Option String
  category : Option String
  total_seconds : Int
  visits : Int
deriving DecidableEq, Repr

/-- SUM over a column: SQL SUM of no rows is NULL, turned into 0 by
COALESCE(SUM(...), 0). -/
def sqlSumInt : List Int → Int
  | [] => 0
  | l => l.sum

/-- The rows of usage_records matched by WHERE user_id = ? AND date = ?. -/
def dailyRows (uid date : String) (usage : List UsageRecord) : List UsageRecord :=
  usage.filter (fun r => r.userId == uid && r.date == date)

/-- The sites query of GET /daily: GROUP BY domain, title, category with
summed counters, ORDER BY total_seconds DESC. -/
def dailySites (uid date : String) (usage : List UsageRecord) : List SiteRow :=
  let rows := dailyRows uid date usage
  let keys := (rows.map (fun r => (r.domain, r.title, r.category))).dedup
  let grouped := keys.map (fun k =>
    let g := rows.filter (fun r => (r.domain, r.title, r.category) == k)
    ({ domain := k.1, title := k.2.1, category := k.2.2
       total_seconds := (g.map (fun r => r.totalSeconds)).sum
       visits := (g.map (fun r => r.visits)).sum } : SiteRow))
  List.insertionSort (fun a b => b.total_seconds ≤ a.total_seconds) grouped

/-- The totals row of GET /daily. -/
structure DailyTotals where
  totalSeconds : Int
  totalVisits : Int
  totalDomains : Int
deriving DecidableEq, Repr

/-- The totals query of GET /daily: COALESCE'd sums and a distinct
domain count. -/
def dailyTotals (uid date : String) (usage : List UsageRecord) : DailyTotals :=
  let rows := dailyRows uid date usage
  { totalSeconds := sqlSumInt (rows.map (fun r => r.totalSeconds))
    totalVisits := sqlSumInt (rows.map (fun r => r.visits))
    totalDomains := ((rows.map (fun r => r.domain)).dedup.length : Int) }

/-- The response of GET /daily (the category and device breakdowns are
further GROUP BY views of the same filtered rows and are not consulted
by any claim). -/
structure DailyOut where
  sites : List SiteRow
  totals : DailyTotals
  screenshotCount : Int
deriving DecidableEq, Repr

/-- GET /daily. -/
def daily (uid date : String) (usage : List UsageRecord) (ss : List SsRow) :
    DailyOut :=
  { sites := dailySites uid date usage
    totals := dailyTotals uid date usage
    screenshotCount :=
      (((ss.filter (fun r => r.userId == uid && r.date == date)).length : Nat) : Int) }

/-- Lexicographic code-point comparison of character lists: the order
Postgres applies to the ASCII calendar-day strings stored in the date
column. -/
def strLtB : List Char → List Char → Bool
  | [], [] => false
  | [], _ :: _ => true
  | _ :: _, [] => false
  | a :: as, b :: bs =>
    if a.toNat < b.toNat then true
    else if b.toNat < a.toNat then false
    else strLtB as bs

/-- The SQL comparison a < b on date strings. -/
def dateLt (a b : String) : Bool := strLtB a.toList b.toList

/-- One row of the GET /top-domains result. -/
structure DomainRow where
  domain : String
  title : Option String
  category : Option String
  total_seconds : Int
  total_visits : Int
  active_days : Int
deriving DecidableEq, Repr

/-- The JavaScript idiom parseInt(q) || d for an integer query parameter:
an absent or unparseable parameter (NaN) and the falsy literal 0 both
fall back to the default. -/
def jsQueryInt (v : Option Int) (dflt : Int) : Int :=
  match v with
  | some n => if n == 0 then dflt else n
  | none => dflt

/-- The response of GET /top-domains. -/
structure TopOut where
  domains : List DomainRow
  period : Int
deriving DecidableEq, Repr

/-- GET /top-domains.  dateFloor stands for the calendar-day rendering
t => new Date(t).toISOString().slice(0, 10) of an epoch instant; date
strings of this fixed format compare lexicographically as days, which is
exactly the SQL comparison date >= since on the TEXT column. -/
def topDomains (uid : String) (periodReq limitReq : Option Int)
    (dateFloor : Int → String) (now : Int) (usage : List UsageRecord) : TopOut :=
  let days := min (jsQueryInt periodReq 7) 90
  let limit := min (jsQueryInt limitReq 20) 100
  let since := dateFloor (now - days * 86400000)
  let rows := usage.filter
    (fun r => r.userId == uid && !dateLt r.date since)
  let keys := (rows.map (fun r => (r.domain, r.title, r.category))).dedup
  let grouped := keys.map (fun k =>
    let g := rows.filter (fun r => (r.domain, r.title, r.category) == k)
    ({ domain := k.1, title := k.2.1, category := k.2.2
       total_seconds := (g.map (fun r => r.totalSeconds)).sum
       total_visits := (g.map (fun r => r.visits)).sum
       active_days := (((g.map (fun r => r.date)).dedup.length : Nat) : Int) } : DomainRow))
  let sorted := List.insertionSort (fun a b => b.total_seconds ≤ a.total_seconds) grouped
  { domains := sorted.take limit.toNat, period := days }

/-- The summed time of one domain across every matching record of the
trailing window, regardless of title/category grouping (what "the
domain's total totalSeconds" denotes). -/
def domainTotal (uid : String) (since dom : String) (usage : List UsageRecord) : Int :=
  ((usage.filter (fun r => r.userId == uid && !dateLt r.date since
      && r.domain == dom)).map (fun r => r.totalSeconds)).sum

/-- The effect of one upsert on the row stored under key k: touched only
when k is the conflict key of the incoming row, in which case the
conflicting row is merged or the new row inserted. -/
def stepK (k : String × String × String × String)
    (o : Option UsageRecord) (p : RowParams) : Option UsageRecord :=
  if keyOfP p = k then
    some (match o with
          | some r => mergeRec r p
          | none => insertRecOf p)
  else o

/-- The merged-or-inserted row, ignoring the key guard. -/
def mstep (o : Option UsageRecord) (p : RowParams) : Option UsageRecord :=
  some (match o with
        | some r => mergeRec r p
        | none => insertRecOf p)

instance : IsTotal SiteRow (fun a b => b.total_seconds ≤ a.total_seconds) :=
  ⟨fun a b => le_total b.total_seconds a.total_seconds⟩

instance : IsTrans SiteRow (fun a b => b.total_seconds ≤ a.total_seconds) :=
  ⟨fun _ _ _ hab hbc => le_trans hbc hab⟩

instance : IsTotal DomainRow (fun a b => b.total_seconds ≤ a.total_seconds) :=
  ⟨fun a b => le_total b.total_seconds a.total_seconds⟩

instance : IsTrans DomainRow (fun a b => b.total_seconds ≤ a.total_seconds) :=
  ⟨fun _ _ _ hab hbc => le_trans hbc hab⟩

instance : IsTotal SsRow (fun a b => a.createdAt ≤ b.createdAt) :=
  ⟨fun a b => le_total a.createdAt b.createdAt⟩

instance : IsTrans SsRow (fun a b => a.createdAt ≤ b.createdAt) :=
  ⟨fun _ _ _ hab hbc => le_trans hab hbc⟩

/- ===================== Theorems and lemmas ===================== -/

theorem keyOfR_insertRecOf (p : RowParams) : keyOfR (insertRecOf p) = keyOfP p := rfl

theorem keyOfR_mergeRec (r : UsageRecord) (p : RowParams) :
    keyOfR (mergeRec r p) = keyOfR r := rfl

theorem coalesce_coalesce {α : Type} (a b : Option α) :
    coalesce a (coalesce a b) = coalesce a b := by
  cases a <;> rfl

theorem coalesce_self {α : Type} (a : Option α) : coalesce a a = a := by
  cases a <;> rfl

theorem leastOpt_assoc_idem (a b : Option Int) :
    leastOpt (leastOpt a b) b = leastOpt a b := by
  cases a <;> cases b <;> simp [leastOpt, min_assoc]

theorem greatestOpt_assoc_idem (a b : Option Int) :
    greatestOpt (greatestOpt a b) b = greatestOpt a b := by
  cases a <;> cases b <;> simp [greatestOpt, max_assoc]

theorem leastOpt_self (a : Option Int) : leastOpt a a = a := by
  cases a <;> simp [leastOpt]

theorem greatestOpt_self (a : Option Int) : greatestOpt a a = a := by
  cases a <;> simp [greatestOpt]

/-- Re-merging the same incoming row is a no-op on every column. -/
theorem mergeRec_idem (r : UsageRecord) (p : RowParams) :
    mergeRec (mergeRec r p) p = mergeRec r p := by
  simp only [mergeRec, max_assoc, max_self, coalesce_coalesce,
    leastOpt_assoc_idem, greatestOpt_assoc_idem]

/-- Merging an incoming row into its own freshly inserted copy is a
no-op. -/
theorem mergeRec_insertRecOf (p : RowParams) :
    mergeRec (insertRecOf p) p = insertRecOf p := by
  simp only [mergeRec, insertRecOf, max_self, coalesce_self,
    leastOpt_self, greatestOpt_self]

/-- Effect of one upsert on the row stored under an arbitrary key. -/
theorem lookupU_upsertList (l : List UsageRecord) (p : RowParams)
    (k : String × String × String × String) :
    lookupU (upsertList l p) k = stepK k (lookupU l k) p := by
  induction l with
  | nil =>
    by_cases h : keyOfP p = k
    · have hb : (keyOfP p == k) = true := by simp [h]
      simp [lookupU, upsertList, stepK, h, hb, List.find?, keyOfR_insertRecOf]
    · have hb : (keyOfP p == k) = false := by simp [h]
      simp [lookupU, upsertList, stepK, h, hb, List.find?, keyOfR_insertRecOf]
  | cons r rs ih =>
    by_cases hm : matchKey p r
    · have hr : keyOfR r = keyOfP p := by
        simpa [matchKey] using hm
      by_cases h : keyOfP p = k
      · have hb : (keyOfR r == k) = true := by simp [hr, h]
        simp [lookupU, upsertList, stepK, hm, h, hb, List.find?,
          keyOfR_mergeRec, hr]
      · have hb : (keyOfR r == k) = false := by simp [hr, h]
        have hb2 : (keyOfP p == k) = false := by simp [h]
        simp [lookupU, upsertList, stepK, hm, h, hb, hb2, List.find?,
          keyOfR_mergeRec, hr]
    · have hr : keyOfR r ≠ keyOfP p := by
        simpa [matchKey] using hm
      by_cases hk : keyOfR r = k
      · have h : keyOfP p ≠ k := fun hc => hr (hk ▸ hc.symm ▸ rfl)
        have hb : (keyOfR r == k) = true := by simp [hk]
        simp [lookupU, upsertList, stepK, hm, h, hb, List.find?]
      · have hb : (keyOfR r == k) = false := by simp [hk]
        simpa [lookupU, upsertList, stepK, hm, hb, List.find?] using ih

/-- Effect of a whole sequence of upserts on the row stored under a key. -/
theorem lookupU_applyRowsL (rows : List RowParams) (l : List UsageRecord)
    (k : String × String × String × String) :
    lookupU (applyRowsL l rows) k = rows.foldl (stepK k) (lookupU l k) := by
  induction rows generalizing l with
  | nil => rfl
  | cons p rest ih =>
    simp only [applyRowsL, List.foldl_cons] at *
    rw [ih (upsertList l p), lookupU_upsertList]

/-- The per-key fold only consults the entries whose conflict key is k. -/
theorem foldl_stepK_filter (k : String × String × String × String)
    (rows : List RowParams) (o : Option UsageRecord) :
    rows.foldl (stepK k) o =
      (rows.filter (fun p => keyOfP p == k)).foldl mstep o := by
  induction rows generalizing o with
  | nil => rfl
  | cons p rest ih =>
    by_cases h : keyOfP p = k
    · simp [List.foldl_cons, List.filter_cons, h, stepK, mstep, ih]
    · simp [List.foldl_cons, List.filter_cons, h, stepK, ih]

/-- Distinct conflict keys leave at most one entry per key. -/
theorem filter_keyOfP_length_le_one (k : String × String × String × String)
    (rows : List RowParams) (hnd : (rows.map keyOfP).Nodup) :
    (rows.filter (fun p => keyOfP p == k)).length ≤ 1 := by
  induction rows with
  | nil => simp
  | cons p rest ih =>
    simp only [List.map_cons, List.nodup_cons] at hnd
    by_cases h : keyOfP p = k
    · have hnil : rest.filter (fun q => keyOfP q == k) = [] := by
        refine List.filter_eq_nil_iff.mpr (fun q hq => ?_)
        intro hc
        exact hnd.1 (List.mem_map.mpr ⟨q, hq, by
          have : keyOfP q = k := by simpa using hc
          simp [this, h]⟩)
      simp [List.filter_cons, h, hnil]
    · simpa [List.filter_cons, h] using ih hnd.2

theorem mstep_idem (o : Option UsageRecord) (p : RowParams) :
    mstep (mstep o p) p = mstep o p := by
  cases o <;> simp [mstep, mergeRec_idem, mergeRec_insertRecOf]

/-- Re-running a sequence of upserts with pairwise distinct conflict
keys is a no-op on the row stored under any key. -/
theorem foldl_stepK_idem (k : String × String × String × String)
    (rows : List RowParams) (hnd : (rows.map keyOfP).Nodup)
    (o : Option UsageRecord) :
    rows.foldl (stepK k) (rows.foldl (stepK k) o) = rows.foldl (stepK k) o := by
  simp only [foldl_stepK_filter]
  have hlen := filter_keyOfP_length_le_one k rows hnd
  rcases hF : rows.filter (fun p => keyOfP p == k) with _ | ⟨p, _ | ⟨q, rest⟩⟩
  · rfl
  · simpa using mstep_idem o p
  · rw [hF] at hlen
    simp at hlen

/-- Along any per-key fold, a present row stays present and its counters
never decrease. -/
theorem foldl_stepK_mono (k : String × String × String × String)
    (rows : List RowParams) (o : Option UsageRecord) (r : UsageRecord)
    (h : o = some r) :
    ∃ r', rows.foldl (stepK k) o = some r' ∧
      r.totalSeconds ≤ r'.totalSeconds ∧ r.visits ≤ r'.visits := by
  induction rows generalizing o r with
  | nil => exact ⟨r, h, le_refl _, le_refl _⟩
  | cons p rest ih =>
    by_cases hk : keyOfP p = k
    · have hstep : stepK k o p = some (mergeRec r p) := by
        simp [stepK, hk, h]
      obtain ⟨r', hr', h1, h2⟩ := ih (stepK k o p) (mergeRec r p) hstep
      refine ⟨r', by simpa using hr', ?_, ?_⟩
      · exact le_trans (by simp [mergeRec, le_max_left]) h1
      · exact le_trans (by simp [mergeRec, le_max_left]) h2
    · have hstep : stepK k o p = o := by simp [stepK, hk]
      obtain ⟨r', hr', h1, h2⟩ := ih (stepK k o p) r (hstep.trans h)
      exact ⟨r', by simpa using hr', h1, h2⟩

/-- The inner domains loop equals the fold of its decoded rows, with its
outcome given by okDomains. -/
theorem processDomains_eq (uid did date : String)
    (doms : List (String × JsVal)) (st : St) (n : Nat) :
    processDomains uid did date doms st n =
      ({ st with usage := applyRowsL st.usage (rowsOfDomains uid did date doms) },
       if okDomains uid did date doms
         then Except.ok (n + (rowsOfDomains uid did date doms).length)
         else Except.error ()) := by
  induction doms generalizing st n with
  | nil => simp [processDomains, rowsOfDomains, okDomains, applyRowsL]
  | cons hd rest ih =>
    obtain ⟨dom, data⟩ := hd
    cases h : entryRow uid did dom date data with
    | error e =>
      simp [processDomains, rowsOfDomains, okDomains, h, applyRowsL]
    | ok p =>
      simp only [processDomains, rowsOfDomains, okDomains, h]
      rw [ih]
      simp only [applyRow, applyRowsL, List.foldl_cons]
      have harith : n + 1 + (rowsOfDomains uid did date rest).length
          = n + (p :: rowsOfDomains uid did date rest).length := by
        simp only [List.length_cons]; omega
      rw [harith]

/-- The outer dates loop equals the fold of its decoded rows, with its
outcome given by okDates. -/
theorem processDates_eq (uid did : String)
    (dates : List (String × JsVal)) (st : St) (n : Nat) :
    processDates uid did dates st n =
      ({ st with usage := applyRowsL st.usage (rowsOfDates uid did dates) },
       if okDates uid did dates
         then Except.ok (n + (rowsOfDates uid did dates).length)
         else Except.error ()) := by
  induction dates generalizing st n with
  | nil => simp [processDates, rowsOfDates, okDates, applyRowsL]
  | cons hd rest ih =>
    obtain ⟨date, domv⟩ := hd
    cases h : jsEntries domv with
    | error e =>
      simp [processDates, rowsOfDates, okDates, h, applyRowsL]
    | ok doms =>
      simp only [processDates, rowsOfDates, okDates, h]
      rw [processDomains_eq]
      by_cases hok : okDomains uid did date doms
      · simp only [hok, if_true, Bool.true_and]
        rw [ih]
        simp only [applyRowsL, List.foldl_append]
        have harith : n + (rowsOfDomains uid did date doms).length
              + (rowsOfDates uid did rest).length
            = n + (rowsOfDomains uid did date doms ++ rowsOfDates uid did rest).length := by
          simp only [List.length_append]; omega
        rw [harith]
      · simp [hok, applyRowsL]

/-- A value that is truthy and of typeof object is an object proper. -/
theorem truthy_typeof_vObj (ud : JsVal)
    (h : (jsTruthy ud && jsTypeofObject ud) = true) :
    ∃ l, ud = .vObj l := by
  cases ud <;> simp [jsTruthy, jsTypeofObject] at h ⊢

/-- What a push does to the usage table: nothing unless the deviceId is
truthy and owned, else the fold of the report's decoded upserts. -/
theorem push_usage (now : Int) (uid : String) (dv ud : JsVal)
    (ae : Option (List EvIn)) (st : St) :
    (push now uid dv ud ae st).2.usage =
      if jsTruthy dv
          && (st.devices.find? (fun d => d.id == jsToStr dv && d.userId == uid)).isSome
        then applyRowsL st.usage (rowsOfPush uid (jsToStr dv) ud)
        else st.usage := by
  by_cases htr : jsTruthy dv
  · cases hf : st.devices.find? (fun d => d.id == jsToStr dv && d.userId == uid) with
    | none => simp [push, htr, hf]
    | some d =>
      by_cases hg : (jsTruthy ud && jsTypeofObject ud) = true
      · obtain ⟨l, rfl⟩ := truthy_typeof_vObj ud hg
        by_cases hok : okDates uid (jsToStr dv) l
        · cases ae <;> simp [push, htr, hf, hg, processDates_eq, hok, rowsOfPush]
        · cases ae <;> simp [push, htr, hf, hg, processDates_eq, hok, rowsOfPush]
      · cases ae <;> simp [push, htr, hf, hg, rowsOfPush, applyRowsL]
  · simp [push, htr]

/-- A push preserves whether a device lookup by id and owner succeeds
(the last_sync_at stamp touches no key column). -/
theorem push_devfind (now : Int) (uid : String) (dv ud : JsVal)
    (ae : Option (List EvIn)) (st : St) :
    (((push now uid dv ud ae st).2.devices.find?
        (fun d => d.id == jsToStr dv && d.userId == uid)).isSome)
      = ((st.devices.find? (fun d => d.id == jsToStr dv && d.userId == uid)).isSome) := by
  by_cases htr : jsTruthy dv
  · cases hf : st.devices.find? (fun d => d.id == jsToStr dv && d.userId == uid) with
    | none => simp [push, htr, hf]
    | some d =>
      have hdm := List.mem_of_find?_eq_some hf
      have hP := List.find?_some hf
      simp only [Bool.and_eq_true, beq_iff_eq] at hP
      obtain ⟨hid, huid⟩ := hP
      by_cases hg : (jsTruthy ud && jsTypeofObject ud) = true
      · obtain ⟨l, rfl⟩ := truthy_typeof_vObj ud hg
        by_cases hok : okDates uid (jsToStr dv) l
        · cases ae <;> simp [push, htr, hf, hg, processDates_eq, hok] <;>
            exact ⟨d, hdm, by simp [hid], by simp [hid, huid]⟩
        · cases ae <;> simp [push, htr, hf, hg, processDates_eq, hok]
      · cases ae <;> simp [push, htr, hf, hg] <;>
          exact ⟨d, hdm, by simp [hid], by simp [hid, huid]⟩
  · simp [push, htr]

/-- Inversion of a successful parameter binding: the key columns come
from the loop variables, title/category from the defaulted body values. -/
theorem entryRow_ok_inv (uid did dom date : String) (data : JsVal) (p : RowParams)
    (h : entryRow uid did dom date data = .ok p) :
    ∃ tv cv, jsGet data "title" = .ok tv ∧ jsGet data "category" = .ok cv ∧
      p.title = textParam (jsOr tv (.vStr dom)) ∧
      p.category = textParam (jsOr cv (.vStr "Other")) ∧
      p.userId = uid ∧ p.deviceId = did ∧ p.domain = dom ∧ p.date = date := by
  unfold entryRow at h
  split at h
  · split at h
    · simp only [Except.ok.injEq] at h
      subst h
      exact ⟨_, _, by assumption, by assumption, rfl, rfl, rfl, rfl, rfl, rfl⟩
    · simp at h
  · simp at h

/-- The key columns of a successful parameter binding. -/
theorem entryRow_ok_fields (uid did dom date : String) (data : JsVal) (p : RowParams)
    (h : entryRow uid did dom date data = .ok p) :
    p.userId = uid ∧ p.deviceId = did ∧ p.domain = dom ∧ p.date = date := by
  obtain ⟨_, _, _, _, _, _, h5, h6, h7, h8⟩ := entryRow_ok_inv uid did dom date data p h
  exact ⟨h5, h6, h7, h8⟩

/-- The defaulted title/category parameter is never SQL NULL. -/
theorem textParam_jsOr_isSome (tv : JsVal) (s : String) :
    (textParam (jsOr tv (.vStr s))).isSome := by
  cases tv <;> simp only [jsOr, jsTruthy] <;> split <;>
    simp_all [textParam, jsToStr]

/-- The domains of the decoded inner rows form a sublist of the
enumerated keys. -/
theorem rowsOfDomains_domains_sublist (uid did date : String)
    (doms : List (String × JsVal)) :
    ((rowsOfDomains uid did date doms).map (fun p => p.domain)).Sublist
      (doms.map Prod.fst) := by
  induction doms with
  | nil => simp [rowsOfDomains]
  | cons hd rest ih =>
    obtain ⟨dom, data⟩ := hd
    cases h : entryRow uid did dom date data with
    | error e => simp [rowsOfDomains, h]
    | ok p =>
      have hdom : p.domain = dom := (entryRow_ok_fields uid did dom date data p h).2.2.1
      simpa [rowsOfDomains, h, hdom] using List.Sublist.cons₂ dom ih

/-- Every decoded inner row carries the loop's fixed key columns. -/
theorem rowsOfDomains_mem_fields (uid did date : String)
    (doms : List (String × JsVal)) (p : RowParams)
    (hp : p ∈ rowsOfDomains uid did date doms) :
    p.userId = uid ∧ p.deviceId = did ∧ p.date = date := by
  induction doms with
  | nil => simp [rowsOfDomains] at hp
  | cons hd rest ih =>
    obtain ⟨dom, data⟩ := hd
    cases h : entryRow uid did dom date data with
    | error e => simp [rowsOfDomains, h] at hp
    | ok q =>
      rw [rowsOfDomains, h] at hp
      rcases List.mem_cons.mp hp with rfl | hp'
      · obtain ⟨h1, h2, _, h4⟩ := entryRow_ok_fields uid did dom date data p h
        exact ⟨h1, h2, h4⟩
      · exact ih hp'

/-- The conflict keys of the decoded inner rows are its domains tagged
with the fixed columns. -/
theorem rowsOfDomains_keys_eq (uid did date : String)
    (doms : List (String × JsVal)) :
    (rowsOfDomains uid did date doms).map keyOfP
      = ((rowsOfDomains uid did date doms).map (fun p => p.domain)).map
          (fun x => (uid, did, x, date)) := by
  rw [List.map_map]
  apply List.map_congr_left
  intro p hp
  obtain ⟨h1, h2, h3⟩ := rowsOfDomains_mem_fields uid did date doms p hp
  simp [keyOfP, h1, h2, h3, Function.comp]

/-- Distinct enumerated keys give distinct conflict keys for one date
block. -/
theorem nodup_keys_rowsOfDomains (uid did date : String)
    (doms : List (String × JsVal)) (hd : (doms.map Prod.fst).Nodup) :
    ((rowsOfDomains uid did date doms).map keyOfP).Nodup := by
  rw [rowsOfDomains_keys_eq]
  apply List.Nodup.map
  · intro a b hab
    simpa using hab
  · exact ((rowsOfDomains_domains_sublist uid did date doms).nodup hd)

/-- Every decoded outer row carries the fixed user/device columns and a
date drawn from the enumerated date keys. -/
theorem rowsOfDates_mem_fields (uid did : String)
    (dates : List (String × JsVal)) (p : RowParams)
    (hp : p ∈ rowsOfDates uid did dates) :
    p.userId = uid ∧ p.deviceId = did ∧ p.date ∈ dates.map Prod.fst := by
  induction dates with
  | nil => simp [rowsOfDates] at hp
  | cons hd rest ih =>
    obtain ⟨date, domv⟩ := hd
    cases h : jsEntries domv with
    | error e => simp [rowsOfDates, h] at hp
    | ok doms =>
      rw [rowsOfDates, h] at hp
      rcases List.mem_append.mp hp with hblk | htl
      · obtain ⟨h1, h2, h3⟩ := rowsOfDomains_mem_fields uid did date doms p hblk
        exact ⟨h1, h2, by simp [h3]⟩
      · by_cases hok : okDomains uid did date doms
        · rw [if_pos hok] at htl
          obtain ⟨h1, h2, h3⟩ := ih htl
          exact ⟨h1, h2, by simp [List.mem_cons]; right; simpa using h3⟩
        · rw [if_neg hok] at htl
          simp at htl

/-- Distinct date keys and distinct per-date keys give pairwise distinct
conflict keys for the whole decoded report. -/
theorem nodup_keys_rowsOfDates (uid did : String)
    (dates : List (String × JsVal))
    (hd : (dates.map Prod.fst).Nodup)
    (hall : ∀ pr ∈ dates, ∀ doms, jsEntries pr.2 = .ok doms →
      (doms.map Prod.fst).Nodup) :
    ((rowsOfDates uid did dates).map keyOfP).Nodup := by
  induction dates with
  | nil => simp [rowsOfDates]
  | cons hd0 rest ih =>
    obtain ⟨date, domv⟩ := hd0
    simp only [List.map_cons, List.nodup_cons] at hd
    cases h : jsEntries domv with
    | error e => simp [rowsOfDates, h]
    | ok doms =>
      rw [rowsOfDates, h, List.map_append, List.nodup_append]
      have hblk : ((rowsOfDomains uid did date doms).map keyOfP).Nodup :=
        nodup_keys_rowsOfDomains uid did date doms
          (hall (date, domv) (List.mem_cons_self _ _) doms h)
      refine ⟨hblk, ?_, ?_⟩
      · by_cases hok : okDomains uid did date doms
        · rw [if_pos hok]
          exact ih hd.2 (fun pr hpr => hall pr (List.mem_cons_of_mem _ hpr))
        · rw [if_neg hok]; simp
      · intro k hk1 hk2
        obtain ⟨p1, hp1, rfl⟩ := List.mem_map.mp hk1
        by_cases hok : okDomains uid did date doms
        · rw [if_pos hok] at hk2
          obtain ⟨p2, hp2, hkeq⟩ := List.mem_map.mp hk2
          have hdate1 : p1.date = date :=
            (rowsOfDomains_mem_fields uid did date doms p1 hp1).2.2
          have hdate2 : p2.date ∈ rest.map Prod.fst :=
            (rowsOfDates_mem_fields uid did rest p2 hp2).2.2
          have : p2.date = p1.date := by
            have := hkeq
            simp only [keyOfP, Prod.mk.injEq] at this
            exact this.2.2.2
          rw [this, hdate1] at hdate2
          exact hd.1 hdate2
        · rw [if_neg hok] at hk2
          simp at hk2

/-- Components of report well-formedness. -/
theorem wfReport_vObj (l : List (String × JsVal)) (h : wfReport (.vObj l)) :
    (l.map Prod.fst).Nodup ∧
      (∀ pr ∈ l, ∀ doms, jsEntries pr.2 = .ok doms → (doms.map Prod.fst).Nodup) := by
  have h' := h
  unfold wfReport wfReportB at h'
  simp only [Bool.and_eq_true, List.all_eq_true, decide_eq_true_eq] at h'
  refine ⟨h'.1, fun pr hpr doms hdoms => ?_⟩
  have := h'.2 pr hpr
  rw [hdoms] at this
  simpa using this

/-- A well-formed report decodes to rows with pairwise distinct conflict
keys. -/
theorem nodup_keys_rowsOfPush (uid did : String) (ud : JsVal)
    (hwf : wfReport ud) :
    ((rowsOfPush uid did ud).map keyOfP).Nodup := by
  unfold rowsOfPush
  by_cases hg : (jsTruthy ud && jsTypeofObject ud) = true
  · obtain ⟨l, rfl⟩ := truthy_typeof_vObj ud hg
    obtain ⟨h1, h2⟩ := wfReport_vObj l hwf
    simpa [hg] using nodup_keys_rowsOfDates uid did l h1 h2
  · simp [hg]

/-- C1: for every upsert of a report entry, an existing row under the
conflict key (userId, deviceId, domain, date) is merged with
totalSeconds and visits taking the max, firstVisit the min and lastVisit
the max with NULL as no bound, while a missing row is inserted as-is;
pushing totalSeconds 100 / visits 2 then 80 / 5 for the same key leaves
totalSeconds 100 and visits 5. -/
theorem c1_upsert_merge_semantics :
    (∀ (l : List UsageRecord) (p : RowParams),
      lookupU (upsertList l p) (keyOfP p)
        = some (match lookupU l (keyOfP p) with
                | some r => mergeRec r p
                | none => insertRecOf p))
  ∧ (∀ (r : UsageRecord) (p : RowParams),
      (mergeRec r p).totalSeconds = max r.totalSeconds p.totalSeconds
      ∧ (mergeRec r p).visits = max r.visits p.visits
      ∧ (mergeRec r p).firstVisit = leastOpt r.firstVisit p.firstVisit
      ∧ (mergeRec r p).lastVisit = greatestOpt r.lastVisit p.lastVisit)
  ∧ (∀ a b : Int, leastOpt (some a) (some b) = some (min a b)
      ∧ greatestOpt (some a) (some b) = some (max a b))
  ∧ (∀ o : Option Int, leastOpt none o = o ∧ leastOpt o none = o
      ∧ greatestOpt none o = o ∧ greatestOpt o none = o)
  ∧ (∀ p : RowParams, insertRecOf p
      = ⟨p.userId, p.deviceId, p.domain, p.title, p.category, p.date,
         p.totalSeconds, p.visits, p.firstVisit, p.lastVisit⟩)
  ∧ ((push 2 "u" (.vStr "d1")
        (.vObj [("2024-01-01", .vObj [("example.com",
          .vObj [("totalSeconds", .vNum 80), ("visits", .vNum 5)])])]) none
        (push 1 "u" (.vStr "d1")
          (.vObj [("2024-01-01", .vObj [("example.com",
            .vObj [("totalSeconds", .vNum 100), ("visits", .vNum 2)])])]) none
          ⟨[⟨"d1", "u", "Dev", "desktop", none⟩], [], [], []⟩).2).2.usage
      = [⟨"u", "d1", "example.com", some "example.com", some "Other",
          "2024-01-01", 100, 5, none, none⟩]) := by
  refine ⟨?_, ?_, ?_, ?_, ?_, ?_⟩
  · intro l p
    rw [lookupU_upsertList]
    simp [stepK]
  · intro r p
    exact ⟨rfl, rfl, rfl, rfl⟩
  · intro a b
    exact ⟨rfl, rfl⟩
  · intro o
    cases o <;> exact ⟨rfl, rfl, rfl, rfl⟩
  · intro p
    rfl
  · decide

/-- C2: pushing the same report twice from the same device leaves the
usage_records state reached by the first push unchanged under every
conflict key. -/
theorem c2_push_idempotent (now1 now2 : Int) (uid : String) (dv ud : JsVal)
    (ae : Option (List EvIn)) (st : St)
    (k : String × String × String × String)
    (hwf : wfReport ud) :
    lookupUsage (push now2 uid dv ud ae (push now1 uid dv ud ae st).2).2 k
      = lookupUsage (push now1 uid dv ud ae st).2 k := by
  have h1 := push_usage now1 uid dv ud ae st
  have h2 := push_usage now2 uid dv ud ae (push now1 uid dv ud ae st).2
  have hdev := push_devfind now1 uid dv ud ae st
  unfold lookupUsage
  rw [h2, hdev, h1]
  by_cases hc : (jsTruthy dv
      && (st.devices.find? (fun d => d.id == jsToStr dv && d.userId == uid)).isSome) = true
  · simp only [hc, if_true, lookupU_applyRowsL]
    exact foldl_stepK_idem k (rowsOfPush uid (jsToStr dv) ud)
      (nodup_keys_rowsOfPush uid (jsToStr dv) ud hwf) (lookupU st.usage k)
  · simp [hc]

/-- Closed instance of the idempotence theorem on a concrete report. -/
theorem c2_push_idempotent_witness :
    lookupUsage (push 9 "u" (.vStr "d1")
        (.vObj [("2024-01-01", .vObj [("example.com",
          .vObj [("totalSeconds", .vNum 100), ("visits", .vNum 2)])])]) none
        (push 3 "u" (.vStr "d1")
          (.vObj [("2024-01-01", .vObj [("example.com",
            .vObj [("totalSeconds", .vNum 100), ("visits", .vNum 2)])])]) none
          ⟨[⟨"d1", "u", "Dev", "desktop", none⟩], [], [], []⟩).2).2
        ("u", "d1", "example.com", "2024-01-01")
      = lookupUsage (push 3 "u" (.vStr "d1")
          (.vObj [("2024-01-01", .vObj [("example.com",
            .vObj [("totalSeconds", .vNum 100), ("visits", .vNum 2)])])]) none
          ⟨[⟨"d1", "u", "Dev", "desktop", none⟩], [], [], []⟩).2
          ("u", "d1", "example.com", "2024-01-01") :=
  c2_push_idempotent 3 9 "u" (.vStr "d1")
    (.vObj [("2024-01-01", .vObj [("example.com",
      .vObj [("totalSeconds", .vNum 100), ("visits", .vNum 2)])])]) none
    ⟨[⟨"d1", "u", "Dev", "desktop", none⟩], [], [], []⟩
    ("u", "d1", "example.com", "2024-01-01") (by decide)

/-- C3: a push never decreases the stored totalSeconds or visits of any
conflict key, and never removes a stored row. -/
theorem c3_counters_monotonic (now : Int) (uid : String) (dv ud : JsVal)
    (ae : Option (List EvIn)) (st : St)
    (k : String × String × String × String) (r : UsageRecord)
    (h : lookupUsage st k = some r) :
    ∃ r', lookupUsage (push now uid dv ud ae st).2 k = some r'
      ∧ r.totalSeconds ≤ r'.totalSeconds ∧ r.visits ≤ r'.visits := by
  unfold lookupUsage at *
  rw [push_usage]
  by_cases hc : (jsTruthy dv
      && (st.devices.find? (fun d => d.id == jsToStr dv && d.userId == uid)).isSome) = true
  · rw [if_pos hc, lookupU_applyRowsL]
    exact foldl_stepK_mono k (rowsOfPush uid (jsToStr dv) ud)
      (lookupU st.usage k) r h
  · rw [if_neg hc]
    exact ⟨r, h, le_refl _, le_refl _⟩

/-- Closed instance of the monotonicity theorem on a concrete push. -/
theorem c3_counters_monotonic_witness :
    ∃ r', lookupUsage (push 7 "u" (.vStr "d1")
        (.vObj [("2024-01-01", .vObj [("example.com",
          .vObj [("totalSeconds", .vNum 4), ("visits", .vNum 9)])])]) none
        ⟨[⟨"d1", "u", "Dev", "desktop", none⟩],
         [⟨"u", "d1", "example.com", some "T", some "Other",
           "2024-01-01", 10, 2, none, none⟩], [], []⟩).2
        ("u", "d1", "example.com", "2024-01-01") = some r'
      ∧ (⟨"u", "d1", "example.com", some "T", some "Other",
          "2024-01-01", 10, 2, none, none⟩ : UsageRecord).totalSeconds ≤ r'.totalSeconds
      ∧ (⟨"u", "d1", "example.com", some "T", some "Other",
          "2024-01-01", 10, 2, none, none⟩ : UsageRecord).visits ≤ r'.visits :=
  c3_counters_monotonic 7 "u" (.vStr "d1")
    (.vObj [("2024-01-01", .vObj [("example.com",
      .vObj [("totalSeconds", .vNum 4), ("visits", .vNum 9)])])]) none
    ⟨[⟨"d1", "u", "Dev", "desktop", none⟩],
     [⟨"u", "d1", "example.com", some "T", some "Other",
       "2024-01-01", 10, 2, none, none⟩], [], []⟩
    ("u", "d1", "example.com", "2024-01-01")
    ⟨"u", "d1", "example.com", some "T", some "Other",
      "2024-01-01", 10, 2, none, none⟩ (by decide)

/-- C9: when the deviceId does not belong to the authenticated user the
push answers DeviceNotFound and the state — usage records, activity
events, sync log and devices alike — is exactly what it was. -/
theorem c9_device_ownership_guard (now : Int) (uid : String) (dv ud : JsVal)
    (ae : Option (List EvIn)) (st : St)
    (ht : jsTruthy dv = true)
    (hf : st.devices.find? (fun d => d.id == jsToStr dv && d.userId == uid) = none) :
    push now uid dv ud ae st = (.deviceNotFound, st) := by
  simp [push, ht, hf]

/-- Closed instance of the ownership guard on a device of another user. -/
theorem c9_device_ownership_guard_witness :
    push 5 "u" (.vStr "d1") (.vObj [("2024-01-01", .vObj [("a.com",
        .vObj [("totalSeconds", .vNum 3)])])]) none
      ⟨[⟨"d1", "other", "Dev", "desktop", none⟩], [], [], []⟩
      = (.deviceNotFound, ⟨[⟨"d1", "other", "Dev", "desktop", none⟩], [], [], []⟩) :=
  c9_device_ownership_guard 5 "u" (.vStr "d1")
    (.vObj [("2024-01-01", .vObj [("a.com", .vObj [("totalSeconds", .vNum 3)])])]) none
    ⟨[⟨"d1", "other", "Dev", "desktop", none⟩], [], [], []⟩ (by decide) (by decide)

/-- C10: a push with a valid owned deviceId but neither usageData nor
activityEvents succeeds with zero counts, leaves usage records and the
event log untouched, stamps the device's last_sync_at with the current
time and appends one sync_log row with records_synced 0. -/
theorem c10_empty_push_effect (now : Int) (uid did : String) (st : St) (d : Device)
    (hne : did ≠ "")
    (hf : st.devices.find? (fun x => x.id == did && x.userId == uid) = some d) :
    push now uid (.vStr did) .vUndefined none st
      = (.ok 0 0,
         St.mk
           (st.devices.map
             (fun x => if x.id == did then { x with lastSyncAt := some now } else x))
           st.usage st.events
           (st.syncLog ++ [⟨uid, did, "push", 0, now⟩])) := by
  have ht : jsTruthy (.vStr did) = true := by
    simp [jsTruthy, hne]
  have hstr : jsToStr (.vStr did) = did := rfl
  simp only [push, ht, hstr, Bool.not_true, if_false, hf]
  simp [jsTruthy, jsTypeofObject]

/-- Closed instance of the empty-push frame theorem. -/
theorem c10_empty_push_effect_witness :
    push 42 "u" (.vStr "d1") .vUndefined none
        ⟨[⟨"d1", "u", "Dev", "t", none⟩], [], [], []⟩
      = (.ok 0 0, ⟨[⟨"d1", "u", "Dev", "t", some 42⟩], [], [],
          [⟨"u", "d1", "push", 0, 42⟩]⟩) :=
  (c10_empty_push_effect 42 "u" "d1" ⟨[⟨"d1", "u", "Dev", "t", none⟩], [], [], []⟩
    ⟨"d1", "u", "Dev", "t", none⟩ (by decide) (by decide)).trans (by decide)

/-- C4 counterexample: a report entry with no title and no category is
pushed onto a stored row holding title "My Title" and category "News";
the handler defaults the missing title to the domain and the missing
category to 'Other' before the SQL COALESCE ever runs, so the existing
values are overwritten rather than kept. -/
theorem c4_title_category_counterexample :
    (push 5 "u" (.vStr "d1")
        (.vObj [("2024-01-01", .vObj [("example.com",
          .vObj [("totalSeconds", .vNum 50)])])]) none
        ⟨[⟨"d1", "u", "Dev", "t", none⟩],
         [⟨"u", "d1", "example.com", some "My Title", some "News",
           "2024-01-01", 10, 1, none, none⟩], [], []⟩).2.usage
      = [⟨"u", "d1", "example.com", some "example.com", some "Other",
          "2024-01-01", 50, 1, none, none⟩]
  ∧ ((push 5 "u" (.vStr "d1")
        (.vObj [("2024-01-01", .vObj [("example.com",
          .vObj [("totalSeconds", .vNum 50)])])]) none
        ⟨[⟨"d1", "u", "Dev", "t", none⟩],
         [⟨"u", "d1", "example.com", some "My Title", some "News",
           "2024-01-01", 10, 1, none, none⟩], [], []⟩).2.usage.map
        (fun r => r.title)
      ≠ [some "My Title"]) := by
  constructor
  · decide
  · decide

/-- C4 amended: the push handler defaults an absent/falsy title to the
domain and an absent/falsy category to 'Other', so the bound
title/category parameters are never SQL NULL and the incoming
(defaulted) value always wins the COALESCE against the stored one. -/
theorem c4_title_category_amended (uid did dom date : String) (data : JsVal)
    (p : RowParams) (r : UsageRecord) (tv cv : JsVal)
    (h : entryRow uid did dom date data = .ok p)
    (htv : jsGet data "title" = .ok tv)
    (hcv : jsGet data "category" = .ok cv) :
    p.title.isSome
  ∧ p.category.isSome
  ∧ (mergeRec r p).title = p.title
  ∧ (mergeRec r p).category = p.category
  ∧ (jsTruthy tv = false → p.title = some dom)
  ∧ (jsTruthy cv = false → p.category = some "Other") := by
  obtain ⟨tv', cv', htv', hcv', hpt, hpc, _, _, _, _⟩ :=
    entryRow_ok_inv uid did dom date data p h
  have htveq : tv' = tv := by
    rw [htv'] at htv
    simpa using htv
  have hcveq : cv' = cv := by
    rw [hcv'] at hcv
    simpa using hcv
  rw [htveq] at hpt
  rw [hcveq] at hpc
  have h1 : p.title.isSome := by rw [hpt]; exact textParam_jsOr_isSome tv dom
  have h2 : p.category.isSome := by rw [hpc]; exact textParam_jsOr_isSome cv "Other"
  refine ⟨h1, h2, ?_, ?_, ?_, ?_⟩
  · obtain ⟨t, ht⟩ := Option.isSome_iff_exists.mp h1
    show coalesce p.title r.title = p.title
    rw [ht]
    rfl
  · obtain ⟨c, hc⟩ := Option.isSome_iff_exists.mp h2
    show coalesce p.category r.category = p.category
    rw [hc]
    rfl
  · intro hft
    rw [hpt]
    simp [jsOr, hft, textParam, jsToStr]
  · intro hfc
    rw [hpc]
    simp [jsOr, hfc, textParam, jsToStr]

/-- Closed instance of the amended title/category theorem on an entry
with both fields absent. -/
theorem c4_title_category_amended_witness :
    (some "dom" : Option String).isSome
  ∧ (some "Other" : Option String).isSome
  ∧ (mergeRec ⟨"u", "d", "dom", some "Old", some "News", "2024-01-01",
        1, 1, none, none⟩
      ⟨"u", "d", "dom", "2024-01-01", some "dom", some "Other", 0, 0,
        none, none⟩).title = some "dom"
  ∧ (mergeRec ⟨"u", "d", "dom", some "Old", some "News", "2024-01-01",
        1, 1, none, none⟩
      ⟨"u", "d", "dom", "2024-01-01", some "dom", some "Other", 0, 0,
        none, none⟩).category = some "Other"
  ∧ (jsTruthy .vUndefined = false →
      (some "dom" : Option String) = some "dom")
  ∧ (jsTruthy .vUndefined = false →
      (some "Other" : Option String) = some "Other") :=
  c4_title_category_amended "u" "d" "dom" "2024-01-01" (.vObj [])
    ⟨"u", "d", "dom", "2024-01-01", some "dom", some "Other", 0, 0, none, none⟩
    ⟨"u", "d", "dom", some "Old", some "News", "2024-01-01", 1, 1, none, none⟩
    .vUndefined .vUndefined (by rfl) (by rfl) (by rfl)

/-- C5 counterexample: a report whose second date entry is null is not
rejected with a validation error and not free of partial effects — the
handler merges the first date's record, then the TypeError from
Object.entries(null) is caught and answered as a generic 500 with the
first record still stored. -/
theorem c5_invalid_report_counterexample :
    (push 1000 "u" (.vStr "d1")
        (.vObj [("2024-01-01", .vObj [("a.com", .vObj [("totalSeconds", .vNum 50)])]),
                ("2024-01-02", .vNull)]) none
        ⟨[⟨"d1", "u", "Dev", "desktop", none⟩], [], [], []⟩).1
      = .serverError
  ∧ (push 1000 "u" (.vStr "d1")
        (.vObj [("2024-01-01", .vObj [("a.com", .vObj [("totalSeconds", .vNum 50)])]),
                ("2024-01-02", .vNull)]) none
        ⟨[⟨"d1", "u", "Dev", "desktop", none⟩], [], [], []⟩).2.usage
      = [⟨"u", "d1", "a.com", some "a.com", some "Other",
          "2024-01-01", 50, 0, none, none⟩]
  ∧ (⟨[⟨"d1", "u", "Dev", "desktop", none⟩], [], [], []⟩ : St).usage = [] := by
  refine ⟨?_, ?_, ?_⟩ <;> decide

/-- C5 amended: the push performs no shape validation of the report.  A
report that is not an object is silently ignored — the push succeeds
with zero usage records and the usage table untouched — while an object
report with a null date entry aborts with a generic server error after
the entries before it have already been merged (a partial merge). -/
theorem c5_no_invalid_report_amended (now : Int) (uid : String) (dv ud : JsVal)
    (st : St) (d : Device)
    (hf : st.devices.find? (fun x => x.id == jsToStr dv && x.userId == uid) = some d)
    (ht : jsTruthy dv = true)
    (hg : (jsTruthy ud && jsTypeofObject ud) = false) :
    ((push now uid dv ud none st).1 = .ok 0 0
      ∧ (push now uid dv ud none st).2.usage = st.usage)
  ∧ ((push 7 "u" (.vStr "d9")
        (.vObj [("2024-02-02", .vObj [("b.com", .vObj [("totalSeconds", .vNum 7)])]),
                ("2024-02-03", .vNull)]) none
        ⟨[⟨"d9", "u", "D", "t", none⟩], [], [], []⟩)
      = (.serverError,
         ⟨[⟨"d9", "u", "D", "t", none⟩],
          [⟨"u", "d9", "b.com", some "b.com", some "Other",
            "2024-02-02", 7, 0, none, none⟩], [], []⟩)) := by
  constructor
  · constructor
    · simp [push, ht, hf, hg]
    · simp [push, ht, hf, hg]
  · decide

/-- Closed instance of the amended no-validation theorem on a numeric
report. -/
theorem c5_no_invalid_report_amended_witness :
    ((push 3 "u" (.vStr "d1") (.vNum 42) none
        ⟨[⟨"d1", "u", "Dev", "t", none⟩], [], [], []⟩).1 = .ok 0 0
      ∧ (push 3 "u" (.vStr "d1") (.vNum 42) none
          ⟨[⟨"d1", "u", "Dev", "t", none⟩], [], [], []⟩).2.usage
        = (⟨[⟨"d1", "u", "Dev", "t", none⟩], [], [], []⟩ : St).usage)
  ∧ ((push 7 "u" (.vStr "d9")
        (.vObj [("2024-02-02", .vObj [("b.com", .vObj [("totalSeconds", .vNum 7)])]),
                ("2024-02-03", .vNull)]) none
        ⟨[⟨"d9", "u", "D", "t", none⟩], [], [], []⟩)
      = (.serverError,
         ⟨[⟨"d9", "u", "D", "t", none⟩],
          [⟨"u", "d9", "b.com", some "b.com", some "Other",
            "2024-02-02", 7, 0, none, none⟩], [], []⟩)) :=
  c5_no_invalid_report_amended 3 "u" (.vStr "d1") (.vNum 42)
    ⟨[⟨"d1", "u", "Dev", "t", none⟩], [], [], []⟩
    ⟨"d1", "u", "Dev", "t", none⟩ (by decide) (by decide) (by decide)

theorem sqlSumInt_eq_sum (l : List Int) : sqlSumInt l = l.sum := by
  cases l <;> rfl

/-- C7: Daily(date) reports overall totals equal to the sums over the
user's usage records of that date, orders the per-(domain, title,
category) site rows by total_seconds descending, and yields integer
zeros (never null) for every numeric output field when no rows match. -/
theorem c7_daily_aggregation :
    (∀ (uid date : String) (usage : List UsageRecord) (ss : List SsRow),
      (daily uid date usage ss).totals.totalSeconds
          = ((dailyRows uid date usage).map (fun r => r.totalSeconds)).sum
        ∧ (daily uid date usage ss).totals.totalVisits
          = ((dailyRows uid date usage).map (fun r => r.visits)).sum
        ∧ List.Sorted (fun a b : SiteRow => b.total_seconds ≤ a.total_seconds)
            (daily uid date usage ss).sites)
  ∧ (∀ (uid date : String),
      (daily uid date [] []).totals = ⟨0, 0, 0⟩
        ∧ (daily uid date [] []).screenshotCount = 0
        ∧ (daily uid date [] []).sites = []) := by
  constructor
  · intro uid date usage ss
    refine ⟨sqlSumInt_eq_sum _, sqlSumInt_eq_sum _, ?_⟩
    exact List.sorted_insertionSort _ _
  · intro uid date
    exact ⟨rfl, rfl, rfl⟩

/-- C8 counterexample: records of one user within the window, with
domain a.com split across two titles (300 s each) and domain b.com
holding 500 s under a single title.  TopDomains(period 7, limit 1)
returns the b.com group although domain a.com totals 600 s, because the
query groups by (domain, title, category), not by domain. -/
theorem c8_top_domains_counterexample :
    (topDomains "u" (some 7) (some 1) (fun _ => "2024-01-01") 0
      [⟨"u", "d1", "a.com", some "A", some "Other", "2024-01-05", 300, 1, none, none⟩,
       ⟨"u", "d2", "a.com", some "B", some "Other", "2024-01-05", 300, 1, none, none⟩,
       ⟨"u", "d1", "b.com", some "X", some "Other", "2024-01-05", 500, 1, none, none⟩]).domains
      = [⟨"b.com", some "X", some "Other", 500, 1, 1⟩]
  ∧ domainTotal "u" "2024-01-01" "a.com"
      [⟨"u", "d1", "a.com", some "A", some "Other", "2024-01-05", 300, 1, none, none⟩,
       ⟨"u", "d2", "a.com", some "B", some "Other", "2024-01-05", 300, 1, none, none⟩,
       ⟨"u", "d1", "b.com", some "X", some "Other", "2024-01-05", 500, 1, none, none⟩]
      = 600
  ∧ (500 : Int) < 600 := by
  refine ⟨?_, ?_, ?_⟩ <;> decide

/-- C8 amended: TopDomains caps the period at 90 days and the limit at
100, and ranks rows grouped by (domain, title, category) — not by
domain alone — by each group's summed total_seconds in descending
order, each with its distinct active-day count; with single-title
domains (500 s vs 300 s, limit 1) only the 500 s domain is returned. -/
theorem c8_top_domains_amended :
    (∀ (uid : String) (periodReq limitReq : Option Int)
        (dateFloor : Int → String) (now : Int) (usage : List UsageRecord),
      (topDomains uid periodReq limitReq dateFloor now usage).period ≤ 90
        ∧ (topDomains uid periodReq limitReq dateFloor now usage).domains.length
            ≤ (min (jsQueryInt limitReq 20) 100).toNat
        ∧ min (jsQueryInt limitReq 20) 100 ≤ 100
        ∧ List.Sorted (fun a b : DomainRow => b.total_seconds ≤ a.total_seconds)
            (topDomains uid periodReq limitReq dateFloor now usage).domains)
  ∧ ((topDomains "u" (some 7) (some 1) (fun _ => "2024-01-01") 0
        [⟨"u", "d1", "a.com", some "A", some "Other", "2024-01-05", 300, 1, none, none⟩,
         ⟨"u", "d1", "b.com", some "B", some "Other", "2024-01-05", 500, 1, none, none⟩]).domains
      = [⟨"b.com", some "B", some "Other", 500, 1, 1⟩]) := by
  constructor
  · intro uid periodReq limitReq dateFloor now usage
    refine ⟨min_le_right _ _, ?_, min_le_right _ _, ?_⟩
    · simp only [topDomains, List.length_take]
      exact min_le_left _ _
    · exact List.Pairwise.sublist (List.take_sublist _ _)
        (List.sorted_insertionSort _ _)
  · decide

/-- Inserting via multipart adds exactly one row of the user. -/
theorem ssCount_uploadMultipart (uid deviceId id filename date : String)
    (createdAt : Nat) (st : SsSt) :
    ssCount (uploadMultipart uid deviceId id filename date createdAt st) uid
      = ssCount st uid + 1 := by
  simp [uploadMultipart, ssCount, List.filter_append]

/-- The eviction loop's effect on the rows is a fold of id-filters. -/
theorem foldl_deleteOne_rows (uid : String) (olds : List SsRow) (st : SsSt) :
    (olds.foldl (deleteOne uid) st).rows
      = olds.foldl (fun rs ss => rs.filter (fun r => r.id != ss.id)) st.rows := by
  induction olds generalizing st with
  | nil => rfl
  | cons o rest ih => exact ih (deleteOne uid st o)

/-- Deleting by the id of a present user-owned row with distinct ids
removes exactly one row from the user's count. -/
theorem countU_filter_ne (uid i : String) (rows : List SsRow)
    (hnd : (rows.map (fun r => r.id)).Nodup)
    (r0 : SsRow) (hr0 : r0 ∈ rows) (hid : r0.id = i) (huid : r0.userId == uid) :
    ((rows.filter (fun r => r.id != i)).filter (fun r => r.userId == uid)).length
      = ((rows.filter (fun r => r.userId == uid)).length) - 1 := by
  induction rows with
  | nil => cases hr0
  | cons h rest ih =>
    simp only [List.map_cons, List.nodup_cons] at hnd
    by_cases hhi : h.id = i
    · have hr0h : r0 = h := by
        rcases List.mem_cons.mp hr0 with rfl | hmem
        · rfl
        · exact absurd (hhi ▸ hid ▸ List.mem_map.mpr ⟨r0, hmem, rfl⟩) hnd.1
      have hb : (h.id != i) = false := by simp [hhi]
      have hrest_keep : rest.filter (fun r => r.id != i) = rest := by
        apply List.filter_eq_self.mpr
        intro a ha
        simp only [bne_iff_ne, ne_eq, decide_eq_true_eq]
        intro hai
        exact hnd.1 (hhi ▸ hai ▸ List.mem_map.mpr ⟨a, ha, rfl⟩)
      have hu : (h.userId == uid) = true := hr0h ▸ huid
      simp [List.filter_cons, hb, hu, hrest_keep]
    · have hr0rest : r0 ∈ rest := by
        rcases List.mem_cons.mp hr0 with rfl | hmem
        · exact absurd hid hhi
        · exact hmem
      have hpos : 0 < ((rest.filter (fun r => r.userId == uid)).length) :=
        List.length_pos.mpr (List.ne_nil_of_mem (List.mem_filter.mpr ⟨hr0rest, huid⟩))
      have hb : (h.id != i) = true := by simp [hhi]
      have := ih hnd.2 hr0rest
      by_cases hu : (h.userId == uid) = true
      · simp only [List.filter_cons, hb, if_true, hu, List.length_cons]
        omega
      · have hub : (h.userId == uid) = false := by simpa using hu
        simp only [List.filter_cons, hb, if_true, hub, Bool.false_eq_true,
          if_false, List.length_cons]
        omega

/-- Folding deletions of distinct present user-owned ids removes exactly
their number from the user's count. -/
theorem countU_fold_delete (uid : String) (olds rows : List SsRow)
    (hnd : (rows.map (fun r => r.id)).Nodup)
    (hod : (olds.map (fun r => r.id)).Nodup)
    (hmem : ∀ o ∈ olds, ∃ r ∈ rows, r.id = o.id ∧ r.userId == uid) :
    ((olds.foldl (fun rs ss => rs.filter (fun r => r.id != ss.id)) rows).filter
        (fun r => r.userId == uid)).length
      = ((rows.filter (fun r => r.userId == uid)).length) - olds.length := by
  induction olds generalizing rows with
  | nil => rfl
  | cons o rest ih =>
    simp only [List.map_cons, List.nodup_cons] at hod
    obtain ⟨r0, hr0, hid, huid⟩ := hmem o (List.mem_cons_self _ _)
    have hstep := countU_filter_ne uid o.id rows hnd r0 hr0 hid huid
    have hnd' : ((rows.filter (fun r => r.id != o.id)).map (fun r => r.id)).Nodup :=
      ((List.filter_sublist rows).map (fun r => r.id)).nodup hnd
    have hmem' : ∀ o' ∈ rest, ∃ r ∈ rows.filter (fun r => r.id != o.id),
        r.id = o'.id ∧ r.userId == uid := by
      intro o' ho'
      obtain ⟨r, hr, hrid, hruid⟩ := hmem o' (List.mem_cons_of_mem _ ho')
      refine ⟨r, List.mem_filter.mpr ⟨hr, ?_⟩, hrid, hruid⟩
      simp only [bne_iff_ne, ne_eq, decide_eq_true_eq]
      intro hc
      exact hod.1 (by rw [← hc]; exact List.mem_map.mpr ⟨o', ho', hrid.symm⟩)
    have hpos : 0 < ((rows.filter (fun r => r.userId == uid)).length) :=
      List.length_pos.mpr (List.ne_nil_of_mem (List.mem_filter.mpr ⟨hr0, huid⟩))
    have := ih (rows.filter (fun r => r.id != o.id)) hnd' hod.2 hmem'
    simp only [List.foldl_cons, List.length_cons]
    rw [this, hstep]
    omega

/-- The oldest-k selection has distinct ids, draws from the user's rows,
and has length min k (user count). -/
theorem oldestRows_facts (rows : List SsRow) (uid : String) (k : Nat)
    (hnd : (rows.map (fun r => r.id)).Nodup) :
    ((oldestRows rows uid k).map (fun r => r.id)).Nodup
  ∧ (∀ o ∈ oldestRows rows uid k, o ∈ rows ∧ (o.userId == uid) = true)
  ∧ (oldestRows rows uid k).length
      = min k (rows.filter (fun r => r.userId == uid)).length := by
  have hperm := List.perm_insertionSort
    (fun a b : SsRow => a.createdAt ≤ b.createdAt)
    (rows.filter (fun r => r.userId == uid))
  have hLnd : ((rows.filter (fun r => r.userId == uid)).map (fun r => r.id)).Nodup :=
    ((List.filter_sublist rows).map (fun r => r.id)).nodup hnd
  have hSnd : ((List.insertionSort (fun a b : SsRow => a.createdAt ≤ b.createdAt)
      (rows.filter (fun r => r.userId == uid))).map (fun r => r.id)).Nodup :=
    ((hperm.map (fun r => r.id)).nodup_iff).mpr hLnd
  refine ⟨?_, ?_, ?_⟩
  · exact ((List.take_sublist k _).map (fun r : SsRow => r.id)).nodup hSnd
  · intro o ho
    have h1 : o ∈ List.insertionSort (fun a b : SsRow => a.createdAt ≤ b.createdAt)
        (rows.filter (fun r => r.userId == uid)) := List.take_subset _ _ ho
    have h2 : o ∈ rows.filter (fun r => r.userId == uid) :=
      (List.mem_insertionSort _).mp h1
    exact ⟨(List.mem_filter.mp h2).1, (List.mem_filter.mp h2).2⟩
  · rw [oldestRows, List.length_take, List.length_insertionSort]

/-- The limit-enforcement block caps the user's count at 200 and leaves
it unchanged below the cap. -/
theorem ssCount_enforceLimit (uid : String) (st : SsSt)
    (hnd : (st.rows.map (fun r => r.id)).Nodup) :
    ssCount (enforceLimit uid st) uid = min (ssCount st uid) 200 := by
  unfold enforceLimit
  by_cases hc : 200 < ssCount st uid
  · rw [if_pos hc]
    obtain ⟨h1, h2, h3⟩ := oldestRows_facts st.rows uid (ssCount st uid - 200) hnd
    have hmem : ∀ o ∈ oldestRows st.rows uid (ssCount st uid - 200),
        ∃ r ∈ st.rows, r.id = o.id ∧ (r.userId == uid) = true := by
      intro o ho
      obtain ⟨hom, houid⟩ := h2 o ho
      exact ⟨o, hom, rfl, houid⟩
    have e1 : ssCount ((oldestRows st.rows uid (ssCount st uid - 200)).foldl
          (deleteOne uid) st) uid
        = (((oldestRows st.rows uid (ssCount st uid - 200)).foldl
            (fun rs ss => rs.filter (fun r => r.id != ss.id)) st.rows).filter
            (fun r => r.userId == uid)).length := by
      show ((((oldestRows st.rows uid (ssCount st uid - 200)).foldl
          (deleteOne uid) st).rows).filter (fun r => r.userId == uid)).length = _
      rw [foldl_deleteOne_rows]
    rw [e1, countU_fold_delete uid _ _ hnd h1 hmem, h3]
    have hlen : (st.rows.filter (fun r => r.userId == uid)).length
        = ssCount st uid := rfl
    rw [hlen]
    omega
  · rw [if_neg hc]
    omega

/-- The base64 upload lands the user at min (previous + 1) 200 rows. -/
theorem ssCount_uploadBase64 (uid deviceId id filename date : String)
    (createdAt : Nat) (st : SsSt)
    (hnd : (st.rows.map (fun r => r.id)).Nodup)
    (hfresh : id ∉ st.rows.map (fun r => r.id)) :
    ssCount (uploadBase64 uid deviceId id filename date createdAt st) uid
      = min (ssCount st uid + 1) 200 := by
  have hnd1 : ((st.rows ++ [(⟨id, uid, deviceId, filename, date, createdAt⟩ : SsRow)]).map
      (fun r => r.id)).Nodup := by
    rw [List.map_append]
    refine List.Nodup.append hnd (List.nodup_singleton _) ?_
    intro a ha hb
    simp only [List.map_cons, List.map_nil, List.mem_singleton] at hb
    subst hb
    exact hfresh ha
  have hcount1 : ssCount (⟨st.rows ++ [(⟨id, uid, deviceId, filename, date, createdAt⟩ : SsRow)],
      (uid, filename) :: st.files⟩ : SsSt) uid = ssCount st uid + 1 := by
    simp [ssCount, List.filter_append]
  have hrw : uploadBase64 uid deviceId id filename date createdAt st
      = enforceLimit uid
        (⟨st.rows ++ [(⟨id, uid, deviceId, filename, date, createdAt⟩ : SsRow)],
          (uid, filename) :: st.files⟩ : SsSt) := rfl
  rw [hrw, ssCount_enforceLimit uid _ hnd1, hcount1]

/-- The metadata rows left by the base64 upload do not depend on which
files exist on disk: a row is deleted whether or not its file is
present. -/
theorem uploadBase64_rows_files_indep (uid deviceId id filename date : String)
    (createdAt : Nat) (st : SsSt) (f' : List (String × String)) :
    (uploadBase64 uid deviceId id filename date createdAt ⟨st.rows, f'⟩).rows
      = (uploadBase64 uid deviceId id filename date createdAt st).rows := by
  unfold uploadBase64 enforceLimit
  rw [apply_ite (fun s : SsSt => s.rows), apply_ite (fun s : SsSt => s.rows),
    foldl_deleteOne_rows, foldl_deleteOne_rows]
  rfl

/-- C6 counterexample: a user with exactly 200 stored screenshots
uploads one more through the multipart route; no limit enforcement runs
there and the stored count reaches 201, exceeding the cap. -/
theorem c6_retention_counterexample :
    ssCount (uploadMultipart "u" "d" "id200" "g" "2024-01-01" 200
      ⟨(List.range 200).map (fun i =>
        ⟨toString i, "u", "d", String.append "f" (toString i), "2024-01-01", i⟩),
       []⟩) "u" = 201
  ∧ 200 < 201 := by
  constructor
  · rw [ssCount_uploadMultipart]
    rfl
  · decide

/-- C6 amended: only the base64 upload route enforces the 200-screenshot
cap — after it the user's stored count is min (previous + 1) 200, the
evicted rows being the oldest by created_at and removed from the
metadata whether or not their file exists on disk — while the multipart
upload route inserts without any enforcement, so it can leave the count
above the cap. -/
theorem c6_retention_amended (uid deviceId id filename date : String)
    (createdAt : Nat) (st : SsSt) (f' : List (String × String))
    (hnd : (st.rows.map (fun r => r.id)).Nodup)
    (hfresh : id ∉ st.rows.map (fun r => r.id)) :
    ssCount (uploadBase64 uid deviceId id filename date createdAt st) uid
        = min (ssCount st uid + 1) 200
  ∧ ssCount (uploadMultipart uid deviceId id filename date createdAt st) uid
      = ssCount st uid + 1
  ∧ (uploadBase64 uid deviceId id filename date createdAt ⟨st.rows, f'⟩).rows
      = (uploadBase64 uid deviceId id filename date createdAt st).rows := by
  exact ⟨ssCount_uploadBase64 uid deviceId id filename date createdAt st hnd hfresh,
    ssCount_uploadMultipart uid deviceId id filename date createdAt st,
    uploadBase64_rows_files_indep uid deviceId id filename date createdAt st f'⟩

/-- Closed instance of the amended retention theorem on a one-row
store. -/
theorem c6_retention_amended_witness :
    ssCount (uploadBase64 "u" "d" "b" "g" "2024-01-02" 5
        ⟨[⟨"a", "u", "d", "f0", "2024-01-01", 0⟩], []⟩) "u"
        = min (ssCount (⟨[⟨"a", "u", "d", "f0", "2024-01-01", 0⟩], []⟩ : SsSt) "u" + 1) 200
  ∧ ssCount (uploadMultipart "u" "d" "b" "g" "2024-01-02" 5
        ⟨[⟨"a", "u", "d", "f0", "2024-01-01", 0⟩], []⟩) "u"
      = ssCount (⟨[⟨"a", "u", "d", "f0", "2024-01-01", 0⟩], []⟩ : SsSt) "u" + 1
  ∧ (uploadBase64 "u" "d" "b" "g" "2024-01-02" 5
        ⟨(⟨[⟨"a", "u", "d", "f0", "2024-01-01", 0⟩], []⟩ : SsSt).rows, [("x", "y")]⟩).rows
      = (uploadBase64 "u" "d" "b" "g" "2024-01-02" 5
        ⟨[⟨"a", "u", "d", "f0", "2024-01-01", 0⟩], []⟩).rows :=
  c6_retention_amended "u" "d" "b" "g" "2024-01-02" 5
    ⟨[⟨"a", "u", "d", "f0", "2024-01-01", 0⟩], []⟩ [("x", "y")]
    (by decide) (by decide)
